import Mathlib

/-!
Verification development for the GitLab merge-request review service
(`web_hook.py`).  The review orchestration pipeline is embedded shallowly:
pure helpers become Lean functions; every outbound collaborator call
(repository host, generation backend) is represented by an explicit oracle
value describing the outcome of that call, and the instrumented functions
additionally return a trace of the calls they made.
-/

namespace GitlabReviewer

/-- Configuration values loaded from the environment (`config.py`): the
generation-backend base URL and the model name. -/
structure Config where
  ollamaBaseUrl : String
  ollamaModel : String
deriving DecidableEq

/-- Outcome of the single HTTP exchange performed by `call_ollama_api`, as
seen through `httpx`: a 2xx response whose JSON body may or may not contain a
`response` field; a timeout (`httpx.TimeoutException`); a non-timeout
transport error (`httpx.RequestError`); a non-success status raised by
`raise_for_status` (`httpx.HTTPStatusError`, which is not a `RequestError`
and therefore falls to the generic handler); or any other exception (for
example a JSON decode failure).  The `detail` is Python's `str(e)`. -/
inductive OllamaEvent where
  | success (responseField : Option String)
  | timeout
  | requestError (detail : String)
  | httpStatus (detail : String)
  | unexpected (detail : String)
deriving DecidableEq

/-- Python `str.startswith`, modelled on character lists. -/
def pyStartswith (s pre : String) : Bool :=
  pre.toList.isPrefixOf s.toList

/-- Embedding of `call_ollama_api(prompt, model)` (web_hook.py lines
121-154).  The `try` body returns `result.get("response", "No response from
Ollama")`; the `except` clauses translate each failure into a string whose
first characters are `Error:`. -/
def call_ollama_api (cfg : Config) (ev : OllamaEvent) : String :=
  match ev with
  | .success (some r) => r
  | .success none => "No response from Ollama"
  | .timeout => "Error: Request to Ollama timed out. Please try again."
  | .requestError _ => "Error: Failed to connect to Ollama API at " ++ cfg.ollamaBaseUrl
  | .httpStatus d => "Error: " ++ d
  | .unexpected d => "Error: " ++ d

/-- Modelled from the spec (section 4.3): the abstract typed result of the
Generation-Backend Client, `Text(string) | TimedOut | ConnectionFailed(detail)
| UnexpectedFailure(detail)`. -/
inductive GenerationResult where
  | Text (s : String)
  | TimedOut
  | ConnectionFailed (detail : String)
  | UnexpectedFailure (detail : String)
deriving DecidableEq

/-- Modelled from the spec (section 4.3): which abstract `GenerationResult`
variant each exchange outcome corresponds to.  A non-success HTTP status and
any other unexpected failure are both `UnexpectedFailure`; the connection
failure's user-visible detail is the configured endpoint. -/
def generationResultOfEvent (cfg : Config) : OllamaEvent → GenerationResult
  | .success r => .Text (r.getD "No response from Ollama")
  | .timeout => .TimedOut
  | .requestError _ => .ConnectionFailed cfg.ollamaBaseUrl
  | .httpStatus d => .UnexpectedFailure d
  | .unexpected d => .UnexpectedFailure d

/-- How the code encodes each abstract `GenerationResult` variant as the
returned string (failure variants carry the `Error:` marker prefix). -/
def renderGenerationResult : GenerationResult → String
  | .Text s => s
  | .TimedOut => "Error: Request to Ollama timed out. Please try again."
  | .ConnectionFailed base => "Error: Failed to connect to Ollama API at " ++ base
  | .UnexpectedFailure d => "Error: " ++ d

/-- Behaviour of the collaborators during one review run: the outcome of the
title fetch (`get_merge_request(mr_id).title`), of the diff fetch
(`get_merge_request_diff`), of the single generation-backend exchange, of the
comment post (`add_comment_to_mr`), and of `GitLabClient(...)` construction
(used by the webhook handler).  `Except.error e` stands for a raised
exception with `str(e) = e`. -/
structure World where
  titleResult : Except String String
  diffResult : Except String String
  ollamaEvent : OllamaEvent
  postResult : Except String Unit
  clientInit : Except String Unit

/-- The dictionary returned by `review_merge_request`: keys `status` and
`message` always; key `mr_id` only present on the success path, modelled as
an `Option`. -/
structure ReviewResult where
  status : String
  message : String
  mrIdField : Option Nat
deriving DecidableEq

/-- Calls made during one review run: the prompts sent to the generation
backend, and the `(mr_id, body)` arguments of each attempted comment post. -/
structure ReviewTrace where
  ollamaCalls : List String
  posts : List (Nat × String)
deriving DecidableEq

/-- The hardcoded review rule instructions (`PROMPT` in web_hook.py). -/
def PROMPT : String := "
You are reviewing GitLab merge requests for table definition YAML files. 

VALIDATION RULES:

**Table Name:**
- Must be lowercase, snake_case (e.g., customer_orders, sales_data_2024)
- Must start with letter/number (not underscore)
- No spaces, hyphens, uppercase, or special characters except underscore
- Must be descriptive (not \"a\", \"test\", \"table1\")
- Cannot be SQL reserved words

**Namespace:**
- Must be lowercase, snake_case
- No spaces, hyphens, uppercase, or special characters except underscore
- Must start with letter/number

**Columns (Schema Fields):**
- Field names must follow snake_case convention
- Must be lowercase, descriptive
- No spaces, hyphens, uppercase in field names

OUTPUT FORMAT (use EXACTLY this format, keep it SHORT):

```
🔍 Code Review Summary

Table Name Check: [PASS / FAIL]
Reason: [one line reason if FAIL, or \"OK\" if PASS]

Namespace Check: [PASS / FAIL]
Reason: [one line reason if FAIL, or \"OK\" if PASS]

Column Check: [PASS / FAIL]
Reason: [one line reason if FAIL, or \"OK\" if PASS]

Action: [APPROVE / REQUEST CHANGES]
```

IMPORTANT:
- Keep output SHORT and CONCISE - one line per check
- Only include reasons if there are failures
- If all checks PASS, use \"OK\" for reasons
- Block merge if ANY check FAILS
"

/-- Python `str.strip()` (both ends, whitespace). -/
def pyStrip (s : String) : String :=
  String.mk (((s.toList.dropWhile Char.isWhitespace).reverse.dropWhile
    Char.isWhitespace).reverse)

/-- Embedding of `build_review_prompt(custom_prompt, diff, mr_info)`
(web_hook.py lines 277-308): deterministic string concatenation. -/
def build_review_prompt (custom_prompt diff : String) (title : String) (iid : Nat) : String :=
  "You are a code reviewer for a GitLab merge request.\n\n" ++ custom_prompt ++
  "\n\n## Merge Request Information\n- Title: " ++ title ++
  "\n- MR ID: " ++ toString iid ++
  "\n\n## Code Changes (Diff)\n\n" ++ diff ++
  "\n\n---\n\nPlease review the code changes above according to the instructions provided. Focus on table naming conventions and other validation rules. Provide your review feedback in a clear, structured format.\n"

/-- The warning comment body posted when the generation response carries the
`Error:` marker (web_hook.py line 242). -/
def warningComment (resp : String) : String :=
  "⚠️ **Automated Review Error**\n\n" ++ resp ++ "\n\nPlease check the reviewer service logs."

/-- The success comment body embedding the generated review text
(web_hook.py lines 245-251). -/
def reviewComment (cfg : Config) (resp : String) : String :=
  "🤖 **Automated Code Review** (via Ollama " ++ cfg.ollamaModel ++ ")\n\n" ++
  resp ++ "\n\n---\n*This review was generated automatically by the GitLab PR Reviewer service.*\n"

/-- Python falsiness of the optional title argument (`if not mr_title:`
fires for `None` and for the empty string). -/
def falsyStr : Option String → Bool
  | none => true
  | some s => s == ""

/-- Embedding of `review_merge_request(gitlab_client, mr_id, mr_title)`
(web_hook.py lines 191-274).  The whole body runs under
`try/except Exception`; the title fetch is only guarded by that outer
handler (`Internal error:`), the diff fetch and the comment post each have a
dedicated inner handler.  The returned trace records the generation calls
and the attempted comment posts. -/
def review_merge_request (cfg : Config) (w : World) (mr_id : Nat)
    (mr_title : Option String) : ReviewResult × ReviewTrace :=
  match (if falsyStr mr_title then w.titleResult else .ok (mr_title.getD "")) with
  | .error e => (⟨"error", "Internal error: " ++ e, none⟩, ⟨[], []⟩)
  | .ok title =>
    match w.diffResult with
    | .error e => (⟨"error", "Failed to fetch MR diff: " ++ e, none⟩, ⟨[], []⟩)
    | .ok diff =>
      if diff = "" then
        (⟨"error", "No changes found in MR " ++ toString mr_id, none⟩, ⟨[], []⟩)
      else
        let custom_prompt := pyStrip PROMPT
        let review_prompt := build_review_prompt custom_prompt diff title mr_id
        let ollama_response := call_ollama_api cfg w.ollamaEvent
        let comment :=
          if pyStartswith ollama_response "Error:" then warningComment ollama_response
          else reviewComment cfg ollama_response
        match w.postResult with
        | .ok _ =>
          (⟨"success", "Review completed for MR " ++ toString mr_id, some mr_id⟩,
            ⟨[review_prompt], [(mr_id, comment)]⟩)
        | .error e =>
          (⟨"error", "Failed to post comment: " ++ e, none⟩,
            ⟨[review_prompt], [(mr_id, comment)]⟩)

/-- Embedding of `GitLabClient.get_merge_request_diff` (web_hook.py lines
99-103): `"\n".join([change["diff"] for change in changes["changes"]])`,
applied to the list of per-file diff fragments returned by the host. -/
def get_merge_request_diff (changes : List String) : String :=
  String.intercalate "\n" changes

/-- Modelled from the spec (section 4.4): `getDiff` concatenates every
file-level diff fragment in host order, with no inter-fragment separator
beyond a single newline; the empty fragment list yields the empty DiffText. -/
def specDiffJoin : List String → String
  | [] => ""
  | [c] => c
  | c :: rest => c ++ "\n" ++ specDiffJoin rest

/-- The merge-request part of the webhook payload
(`object_attributes` / `merge_request` dictionaries): the fields the handler
reads. -/
structure MRData where
  iid : Option Nat
  action : Option String
  title : Option String
deriving DecidableEq

/-- The webhook payload fields read by `gitlab_webhook`. -/
structure Payload where
  event_type : Option String
  object_kind : Option String
  object_attributes : Option MRData
  merge_request : Option MRData
deriving DecidableEq

/-- The body of a `JSONResponse`: either a bare `{"message": ...}` or the
dictionary returned by `review_merge_request`. -/
inductive RespBody where
  | message (m : String)
  | result (r : ReviewResult)
deriving DecidableEq

/-- What the webhook endpoint produces: a `JSONResponse` with an explicit
status code, or a raised `HTTPException` (which FastAPI turns into an error
response with that status). -/
inductive HandlerResult where
  | response (status : Nat) (body : RespBody)
  | httpError (status : Nat) (detail : String)
deriving DecidableEq

/-- Everything `gitlab_webhook` returns in the model: the HTTP-level result,
the list of `mr_id` arguments of the orchestration runs it triggered
(calls to `review_merge_request`), and the inner collaborator trace. -/
structure HandlerOutput where
  result : HandlerResult
  reviewRuns : List Nat
  trace : ReviewTrace
deriving DecidableEq

/-- Python `a or b` on two optional strings: `a` wins unless it is missing
or empty (falsy). -/
def pyOrStr (a b : Option String) : Option String :=
  match a with
  | some s => if s = "" then b else some s
  | none => b

/-- Python `payload.get("object_attributes") or payload.get("merge_request",
{})`: the first dictionary wins unless missing or empty (all fields absent),
with `{}` as the final default. -/
def pyOrMR (a b : Option MRData) : MRData :=
  match a with
  | some m => if m = ⟨none, none, none⟩ then b.getD ⟨none, none, none⟩ else m
  | none => b.getD ⟨none, none, none⟩

/-- Rendering of an optional id inside a Python f-string (`None` or the
number). -/
def showOptNat : Option Nat → String
  | none => "None"
  | some n => toString n

/-- Rendering of an optional event-type string inside a Python f-string. -/
def showOptStr : Option String → String
  | none => "None"
  | some s => s

/-- Python falsiness of the `iid` value (`if not mr_id:` fires for a missing
id and for `0`). -/
def falsyNat : Option Nat → Bool
  | none => true
  | some n => n == 0

/-- Embedding of the `gitlab_webhook` endpoint (web_hook.py lines 401-483).
The payload argument is `Except.error e` when `await request.json()` raises
(malformed body), which the outer `except Exception` turns into
`HTTPException(500)`.  `HTTPException`s raised inside the `try` are
re-raised verbatim by `except HTTPException: raise`.  The handler filters on
event kind and action, hard-fails on a falsy `iid`, constructs a
`GitLabClient` (outcome `w.clientInit`), pre-fetches the diff itself, and
only then delegates to `review_merge_request`. -/
def gitlab_webhook (cfg : Config) (w : World) (payload : Except String Payload) :
    HandlerOutput :=
  match payload with
  | .error e => ⟨.httpError 500 ("Internal server error: " ++ e), [], ⟨[], []⟩⟩
  | .ok p =>
    let event_type := pyOrStr p.event_type p.object_kind
    if event_type = some "merge_request" ∨ event_type = some "Merge Request Hook" then
      let mr_data := pyOrMR p.object_attributes p.merge_request
      let mr_id := mr_data.iid
      let action := mr_data.action.getD ""
      if ¬ (action = "open" ∨ action = "update" ∨ action = "reopen") then
        ⟨.response 200 (.message ("Skipped MR " ++ showOptNat mr_id ++ " - action: " ++ action)),
          [], ⟨[], []⟩⟩
      else if falsyNat mr_id then
        ⟨.httpError 400 "Missing merge request ID", [], ⟨[], []⟩⟩
      else
        let n := mr_id.getD 0
        match w.clientInit with
        | .error e => ⟨.httpError 500 ("Internal server error: " ++ e), [], ⟨[], []⟩⟩
        | .ok _ =>
          match w.diffResult with
          | .error e => ⟨.httpError 500 ("Failed to fetch MR diff: " ++ e), [], ⟨[], []⟩⟩
          | .ok diff =>
            if diff = "" then
              ⟨.response 200 (.message ("No changes found in MR " ++ toString n)), [], ⟨[], []⟩⟩
            else
              let mr_title := mr_data.title.getD ""
              let res := review_merge_request cfg w n (some mr_title)
              ⟨.response (if res.1.status = "success" then 200 else 500) (.result res.1),
                [n], res.2⟩
    else
      ⟨.response 200 (.message ("Event type " ++ showOptStr event_type ++ " not processed")),
        [], ⟨[], []⟩⟩

/-- A scheme character of `urllib.parse` (ASCII letters, digits, `+`, `-`,
`.`). -/
def schemeChar (c : Char) : Bool :=
  c.isAlphanum || c = '+' || c = '-' || c = '.'

/-- The scheme-splitting step of CPython `urlsplit`: when a `:` occurs at a
positive index, the first character is an ASCII letter and everything before
the colon is a scheme character, the (lowercased) scheme is split off. -/
def splitScheme (l : List Char) : String × List Char :=
  match l.findIdx? (fun c => c = ':') with
  | some i =>
    if 0 < i ∧ (l.headD ' ').isAlpha ∧ (l.take i).all schemeChar then
      (String.mk ((l.take i).map Char.toLower), l.drop (i + 1))
    else ("", l)
  | none => ("", l)

/-- A netloc delimiter of CPython `_splitnetloc` (`/`, `?`, `#`). -/
def netlocDelim (c : Char) : Bool :=
  c = '/' || c = '?' || c = '#'

/-- First codepoints of the 66 ranges of Unicode decimal digits (category
Nd, Unicode 14.0 as shipped with CPython 3.11); each range spans ten
consecutive codepoints whose decimal values are 0 through 9 in order.
Python's `\d` on a str pattern matches exactly these characters, and
`int()` accepts exactly these as digits. -/
def ndRangeStarts : List Nat :=
  [0x30, 0x660, 0x6f0, 0x7c0, 0x966, 0x9e6, 0xa66, 0xae6, 0xb66, 0xbe6,
   0xc66, 0xce6, 0xd66, 0xde6, 0xe50, 0xed0, 0xf20, 0x1040, 0x1090, 0x17e0,
   0x1810, 0x1946, 0x19d0, 0x1a80, 0x1a90, 0x1b50, 0x1bb0, 0x1c40, 0x1c50,
   0xa620, 0xa8d0, 0xa900, 0xa9d0, 0xa9f0, 0xaa50, 0xabf0, 0xff10, 0x104a0,
   0x10d30, 0x11066, 0x110f0, 0x11136, 0x111d0, 0x112f0, 0x11450, 0x114d0,
   0x11650, 0x116c0, 0x11730, 0x118e0, 0x11950, 0x11c50, 0x11d50, 0x11da0,
   0x16a60, 0x16ac0, 0x16b50, 0x1d7ce, 0x1d7d8, 0x1d7e2, 0x1d7ec, 0x1d7f6,
   0x1e140, 0x1e2f0, 0x1e950, 0x1fbf0]

/-- Python `\d` on a str pattern: a Unicode decimal digit (category Nd). -/
def pyDigitChar (c : Char) : Bool :=
  ndRangeStarts.any (fun a => a ≤ c.toNat ∧ c.toNat ≤ a + 9)

/-- The decimal value of a Unicode decimal digit, as used by Python
`int()`: the offset inside its Nd range. -/
def pyDigitVal (c : Char) : Nat :=
  match ndRangeStarts.find? (fun a => a ≤ c.toNat ∧ c.toNat ≤ a + 9) with
  | some a => c.toNat - a
  | none => 0

/-- An ASCII hexadecimal digit (`string.hexdigits`, used by
`ipaddress._parse_hextet`). -/
def hexDigitAscii (c : Char) : Bool :=
  ('0' ≤ c ∧ c ≤ '9') ∨ ('a' ≤ c ∧ c ≤ 'f') ∨ ('A' ≤ c ∧ c ≤ 'F')

/-- An ASCII decimal digit (`ipaddress._parse_octet` rejects non-ASCII
digits via `isascii() and isdigit()`). -/
def asciiDigitChar (c : Char) : Bool :=
  '0' ≤ c ∧ c ≤ '9'

/-- Python `str.split(sep)` on a character list: every occurrence splits,
empty segments included. -/
def splitOnChar (sep : Char) : List Char → List (List Char)
  | [] => [[]]
  | c :: rest =>
    let r := splitOnChar sep rest
    if c = sep then [] :: r
    else (c :: r.headD []) :: r.tail

/-- A valid dotted-quad octet per `ipaddress.IPv4Address._parse_octet`:
non-empty ASCII digits, at most three characters, no leading zero unless
the octet is exactly `0`, value at most 255. -/
def validOctet (p : List Char) : Bool :=
  p ≠ [] ∧ p.all asciiDigitChar ∧ p.length ≤ 3 ∧
  (p = ['0'] ∨ p.headD '0' ≠ '0') ∧
  p.foldl (fun n c => 10 * n + (c.toNat - 48)) 0 ≤ 255

/-- A valid IPv4 address string per `ipaddress.IPv4Address`: no slash and
exactly four valid octets. -/
def ipv4Ok (a : List Char) : Bool :=
  ¬ a.contains '/' ∧ (splitOnChar '.' a).length = 4 ∧
  (splitOnChar '.' a).all validOctet

/-- A valid IPv6 hextet per `ipaddress._BaseV6._parse_hextet`: non-empty,
ASCII hex digits only, at most four characters. -/
def validHextet (p : List Char) : Bool :=
  p ≠ [] ∧ p.all hexDigitAscii ∧ p.length ≤ 4

/-- The colon-structure validation of
`ipaddress._BaseV6._ip_int_from_string` on the colon-separated parts
(after any IPv4 suffix has been converted): at most nine parts, at most one
empty inner part (the `::`), empty endpoints only adjacent to the `::`, at
least one skipped group, and every remaining part a valid hextet; without a
`::` exactly eight valid hextets. -/
def v6struct (parts : List (List Char)) : Bool :=
  let n := parts.length
  if 9 < n then false
  else
    let middles := (parts.drop 1).take (n - 2)
    let empties := middles.countP (fun p => p.isEmpty)
    if 1 < empties then false
    else if empties = 1 then
      let k := 1 + middles.findIdx (fun p => p.isEmpty)
      let headEmpty := (parts.headD []).isEmpty
      let lastEmpty := (parts.getLastD []).isEmpty
      if headEmpty ∧ k ≠ 1 then false
      else if lastEmpty ∧ k ≠ n - 2 then false
      else
        let pHi := if headEmpty then k - 1 else k
        let pLo := if lastEmpty then n - k - 2 else n - k - 1
        if 8 ≤ pHi + pLo then false
        else (parts.take pHi).all validHextet ∧ (parts.drop (n - pLo)).all validHextet
    else
      n = 8 ∧ ¬ (parts.headD []).isEmpty ∧ ¬ (parts.getLastD []).isEmpty ∧
        parts.all validHextet

/-- The address part of `ipaddress._BaseV6._ip_int_from_string`: non-empty,
at least three colon-separated parts, an IPv4-style last part converted to
two hextets, then the colon-structure check. -/
def v6core (a : List Char) : Bool :=
  if a = [] then false
  else
    let parts := splitOnChar ':' a
    if parts.length < 3 then false
    else
      let lastPart := parts.getLastD []
      if lastPart.contains '.' then
        if ipv4Ok lastPart then v6struct (parts.dropLast ++ [['0'], ['0']])
        else false
      else v6struct parts

/-- A valid IPv6 address string per `ipaddress.IPv6Address`: no slash, an
optional non-empty scope id after a single `%`, and a valid address part. -/
def isValidIPv6 (host : List Char) : Bool :=
  if host.contains '/' then false
  else if host.contains '%' then
    let addr := host.takeWhile (fun c => c ≠ '%')
    let scope := (host.dropWhile (fun c => c ≠ '%')).drop 1
    if scope = [] ∨ scope.contains '%' then false else v6core addr
  else v6core host

/-- CPython `urllib.parse._check_bracketed_host`: a host starting with `v`
must be an IPvFuture (`v`, hex digits, a dot, a non-empty remainder);
anything else must be a valid IPv6 address (a plain IPv4 address is also
rejected, which the IPv6 check covers since dotted quads lack the two
required colons). -/
def bracketedHostOk (host : List Char) : Bool :=
  match host with
  | 'v' :: rest =>
    let h := rest.takeWhile hexDigitAscii
    let after := rest.dropWhile hexDigitAscii
    !h.isEmpty && (match after with
      | '.' :: t => !t.isEmpty && !t.contains '\n'
      | _ => false)
  | _ => isValidIPv6 host

/-- The characters that make CPython `urllib.parse._checknetloc` raise
`ValueError`: exactly the non-ASCII characters whose NFKC normalization
contains one of the characters slash, question mark, number sign, at sign
or colon (computed over all of Unicode 14.0; none of those five ASCII
characters takes part in any canonical composition, so the per-character
check matches normalizing the whole netloc). -/
def nfkcBadChar (c : Char) : Bool :=
  c.toNat = 0x2047 ∨ c.toNat = 0x2048 ∨ c.toNat = 0x2049 ∨ c.toNat = 0x2100 ∨
  c.toNat = 0x2101 ∨ c.toNat = 0x2105 ∨ c.toNat = 0x2106 ∨ c.toNat = 0x2a74 ∨
  c.toNat = 0xfe13 ∨ c.toNat = 0xfe16 ∨ c.toNat = 0xfe55 ∨ c.toNat = 0xfe56 ∨
  c.toNat = 0xfe5f ∨ c.toNat = 0xfe6b ∨ c.toNat = 0xff03 ∨ c.toNat = 0xff0f ∨
  c.toNat = 0xff1a ∨ c.toNat = 0xff1f ∨ c.toNat = 0xff20

/-- The netloc handling of CPython `urlsplit` (3.11 runtime): when the
remainder starts with `//`, the netloc runs to the first of `/?#`;
unbalanced square brackets raise `ValueError`; a bracketed host (the text
between the first `[` and the following `]`) must pass
`_check_bracketed_host`; and `_checknetloc` raises on the NFKC-dangerous
characters.  Every `ValueError` is modelled as `none`. -/
def splitNetloc (l : List Char) : Option (List Char) :=
  match l with
  | c0 :: c1 :: rest =>
    if c0 = '/' ∧ c1 = '/' then
      let netloc := rest.takeWhile (fun c => ¬ netlocDelim c)
      if (netloc.contains '[' ∧ ¬ netloc.contains ']') ∨
          (netloc.contains ']' ∧ ¬ netloc.contains '[') then none
      else if netloc.contains '[' ∧ netloc.contains ']' ∧
          ¬ bracketedHostOk (((netloc.dropWhile (fun c => c ≠ '[')).drop 1).takeWhile
            (fun c => c ≠ ']')) then none
      else if netloc.any nfkcBadChar then none
      else some (rest.dropWhile (fun c => ¬ netlocDelim c))
    else some l
  | _ => some l

/-- The schemes for which `urlparse` performs parameter splitting
(`uses_params`, with the empty scheme included). -/
def usesParams : List String :=
  ["", "ftp", "hdl", "prospero", "http", "imap", "https", "shttp", "rtsp",
   "rtsps", "rtspu", "sip", "sips", "mms", "sftp", "tel"]

/-- CPython `_splitparams` when the path contains a `/`: everything up to and
including the last `/` is kept, and the final segment is truncated at its
first `;`. -/
def splitparamsAux : List Char → List Char
  | [] => []
  | c :: rest =>
    if c = '/' ∧ ¬ rest.contains '/' then c :: rest.takeWhile (fun d => d ≠ ';')
    else c :: splitparamsAux rest

/-- CPython `_splitparams(url)`: drop the `;params` suffix of the last path
segment (of the whole path when it contains no `/`). -/
def splitparams (l : List Char) : List Char :=
  if l.contains '/' then splitparamsAux l else l.takeWhile (fun d => d ≠ ';')

/-- Path extraction of CPython `urlparse` (`urllib.parse`) after the
cleaning step: split off the scheme, split off the netloc (raising on
unbalanced brackets, modelled as `none`), truncate at the fragment and query
markers, and split params for the `uses_params` schemes. -/
def pathOfCleanedUrl (l1 : List Char) : Option (List Char) :=
  match splitNetloc (splitScheme l1).2 with
  | none => none
  | some l3 =>
    let l4 := (l3.takeWhile (fun c => c ≠ '#')).takeWhile (fun c => c ≠ '?')
    some (if usesParams.contains (splitScheme l1).1 then splitparams l4 else l4)

/-- The WHATWG-mandated cleaning step at the top of CPython `urlsplit`:
left-strip C0 control characters and spaces, then remove every tab,
carriage return and newline anywhere in the URL. -/
def cleanUrl (s : String) : List Char :=
  (s.toList.dropWhile (fun c => c.toNat ≤ 32)).filter
    (fun c => ¬ (c = '\t' ∨ c = '\r' ∨ c = '\n'))

/-- Path extraction of CPython `urlparse` on the cleaned URL. -/
def pyUrlparsePath (s : String) : Option (List Char) :=
  pathOfCleanedUrl (cleanUrl s)

/-- The literal marker of the merge-request URL pattern, as a character
list. -/
def markerL : List Char := "/-/merge_requests/".toList

/-- Whether a character list starts with a Unicode decimal digit (the
anchor `\d` needs at least one digit right after the marker). -/
def startsWithDigit : List Char → Bool
  | c :: _ => pyDigitChar c
  | [] => false

/-- Whether the regex tail (the literal marker `markerL` followed by the
anchored `(\d+)`) matches at the head of `l`: the marker is a prefix and at
least one digit follows it. -/
def isMarkerDigits (l : List Char) : Bool :=
  markerL.isPrefixOf l && startsWithDigit (l.drop markerL.length)

/-- The digits captured by the greedy `(\d+)` once the marker has matched at
the head of `l`: the maximal digit run after the marker. -/
def digitsOfMatch (l : List Char) : List Char :=
  (l.drop markerL.length).takeWhile pyDigitChar

/-- What remains after the captured digits. -/
def restOfMatch (l : List Char) : List Char :=
  (l.drop markerL.length).dropWhile pyDigitChar

/-- The backtracking loop of the lazy group `(.+?)`: `acc` is the group text
matched so far (always nonempty at call sites).  At each step the engine
first tries to match the rest of the pattern here; otherwise it extends the
group by one more character, which `.` cannot do across a newline. -/
def lazyGroup : List Char → List Char → Option (List Char × List Char)
  | acc, [] => if isMarkerDigits [] then some (acc, digitsOfMatch []) else none
  | acc, c :: rest =>
    if isMarkerDigits (c :: rest) then some (acc, digitsOfMatch (c :: rest))
    else if c = '\n' then none
    else lazyGroup (acc ++ [c]) rest

/-- One attempt of `re.search` at a fixed start position: the pattern
(a literal slash, the lazy group `(.+?)`, the marker, then `(\d+)`)
first consumes a literal slash, then at least
one non-newline character into the lazy group, then hands over to
`lazyGroup`.  On success it returns (group 1, group 2). -/
def tryAt (l : List Char) : Option (List Char × List Char) :=
  match l with
  | c0 :: c :: rest =>
    if c0 = '/' then (if c = '\n' then none else lazyGroup [c] rest) else none
  | _ => none

/-- `re.search` of the merge-request URL pattern: try each start position
from the left; the first position admitting a match wins. -/
def reSearch : List Char → Option (List Char × List Char)
  | [] => none
  | c :: rest =>
    match tryAt (c :: rest) with
    | some r => some r
    | none => reSearch rest

/-- Python `int` of a string of Unicode decimal digits: base-10 over each
digit's decimal value. -/
def natOfDigits (ds : List Char) : Nat :=
  ds.foldl (fun n c => 10 * n + pyDigitVal c) 0

/-- Embedding of `parse_gitlab_pr_url(pr_url)` (web_hook.py lines 157-188):
extract the URL path with `urlparse`, search it for
the merge-request pattern, and return `(project_path, int(mr_id))`;
every failure (no match, or an exception from `urlparse`) yields
`(None, None)`. -/
def parse_gitlab_pr_url (s : String) : Option String × Option Nat :=
  match pyUrlparsePath s with
  | none => (none, none)
  | some p =>
    match reSearch p with
    | some (g, ds) => (some (String.mk g), some (natOfDigits ds))
    | none => (none, none)

/-- The claim-facing predicate: the path contains the pattern
slash, repositoryPath, marker, digits, with a non-empty repository
path and a non-empty digit run. -/
def ContainsPat (p : List Char) : Prop :=
  ∃ pre g ds rest, p = pre ++ '/' :: (g ++ markerL ++ ds ++ rest) ∧
    g ≠ [] ∧ ds ≠ [] ∧ ∀ c ∈ ds, pyDigitChar c = true

/-- A canonical occurrence of the pattern inside `p`: `pre` precedes the
match, `g` is the repository path (non-empty, newline-free), `ds` the
maximal digit run (non-empty). -/
def MatchAt (p pre g ds rest : List Char) : Prop :=
  p = pre ++ '/' :: (g ++ markerL ++ ds ++ rest) ∧
  g ≠ [] ∧ (∀ c ∈ g, c ≠ '\n') ∧
  ds ≠ [] ∧ (∀ c ∈ ds, pyDigitChar c = true) ∧
  startsWithDigit rest = false

/-- A decomposition of the input at start position 0 witnessing a match of
the regex: a literal slash, a non-empty newline-free group, then a tail at
which the marker-and-digits part matches. -/
def DecompAt (l g tail : List Char) : Prop :=
  l = '/' :: (g ++ tail) ∧ g ≠ [] ∧ (∀ c ∈ g, c ≠ '\n') ∧ isMarkerDigits tail = true

/-- A decomposition of the input witnessing a match of the regex starting
after the prefix `pre`. -/
def Decomp (p pre g tail : List Char) : Prop :=
  p = pre ++ '/' :: (g ++ tail) ∧ g ≠ [] ∧ (∀ c ∈ g, c ≠ '\n') ∧ isMarkerDigits tail = true

/-- A sample configuration used by the concrete runs below. -/
def cfg0 : Config := ⟨"http://localhost:11434", "codellama"⟩

/-- A run in which every collaborator behaves, the generation exchange times
out, and the comment post succeeds. -/
def wTimeout : World := ⟨.ok "T", .ok "diff text", .timeout, .ok (), .ok ()⟩

/-- A run in which the diff fetch returns the empty string. -/
def wEmptyDiff : World := ⟨.ok "T", .ok "", .success (some "R"), .ok (), .ok ()⟩

/-- A run in which the diff fetch raises an exception. -/
def wDiffFail : World := ⟨.ok "T", .error "boom", .success (some "R"), .ok (), .ok ()⟩

/-- A run in which everything succeeds except the comment post. -/
def wPostFail : World := ⟨.ok "T", .ok "diff text", .success (some "R"), .error "denied", .ok ()⟩

/-- A fully successful run. -/
def wGood : World := ⟨.ok "T", .ok "diff text", .success (some "LGTM"), .ok (), .ok ()⟩

/-- A successful exchange whose generated text itself starts with the
failure marker. -/
def wErrText : World := ⟨.ok "T", .ok "diff text", .success (some "Error: fake"), .ok (), .ok ()⟩

/-- A successful exchange whose JSON body lacks the `response` field. -/
def wNoResp : World := ⟨.ok "T", .ok "diff text", .success none, .ok (), .ok ()⟩

/-- A merge-request webhook payload with `action = "open"` and `iid = 5`. -/
def pOpen : Payload :=
  ⟨none, some "merge_request", some ⟨some 5, some "open", some "T"⟩, none⟩

/-- A merge-request webhook payload with `action = "close"`. -/
def pClose : Payload :=
  ⟨none, some "merge_request", some ⟨some 5, some "close", some "T"⟩, none⟩

/-- A push-event webhook payload (not a merge-request kind). -/
def pPush : Payload := ⟨none, some "push", none, none⟩

/-- A merge-request webhook payload with a matching action but no `iid`. -/
def pNoIid : Payload :=
  ⟨none, some "merge_request", some ⟨none, some "open", some "T"⟩, none⟩

/-! Helper lemmas about the regex model. -/

theorem isMarkerDigits_nil : isMarkerDigits [] = false := by decide

theorem startsWithDigit_dropWhile (l : List Char) :
    startsWithDigit (l.dropWhile pyDigitChar) = false := by
  induction l with
  | nil => rfl
  | cons c rest ih =>
    by_cases hc : pyDigitChar c = true
    · simpa [List.dropWhile_cons, hc] using ih
    · rw [Bool.not_eq_true] at hc
      simp [List.dropWhile_cons, hc, startsWithDigit]

theorem digits_takeWhile_append (ds rest : List Char)
    (h1 : ∀ c ∈ ds, pyDigitChar c = true) (h2 : startsWithDigit rest = false) :
    (ds ++ rest).takeWhile pyDigitChar = ds ∧
    (ds ++ rest).dropWhile pyDigitChar = rest := by
  induction ds with
  | nil =>
    cases rest with
    | nil => exact ⟨rfl, rfl⟩
    | cons c r =>
      have hc : pyDigitChar c = false := h2
      simp [List.takeWhile_cons, List.dropWhile_cons, hc]
  | cons d ds' ih =>
    have hd : pyDigitChar d = true := h1 d (by simp)
    obtain ⟨ht, hdr⟩ := ih (fun c hc => h1 c (by simp [hc]))
    constructor
    · simp [List.takeWhile_cons, hd, ht]
    · simp [List.dropWhile_cons, hd, hdr]

theorem isMarkerDigits_elim (t : List Char) (h : isMarkerDigits t = true) :
    t = markerL ++ digitsOfMatch t ++ restOfMatch t ∧
    digitsOfMatch t ≠ [] ∧ (∀ c ∈ digitsOfMatch t, pyDigitChar c = true) ∧
    startsWithDigit (restOfMatch t) = false := by
  unfold isMarkerDigits at h
  rw [Bool.and_eq_true] at h
  obtain ⟨hpre, hdig⟩ := h
  obtain ⟨u, hu⟩ := List.isPrefixOf_iff_prefix.mp hpre
  have hdrop : t.drop markerL.length = u := by rw [← hu, List.drop_left]
  rw [hdrop] at hdig
  unfold digitsOfMatch restOfMatch
  rw [hdrop]
  refine ⟨?_, ?_, ?_, startsWithDigit_dropWhile u⟩
  · rw [List.append_assoc, List.takeWhile_append_dropWhile, hu]
  · cases u with
    | nil => simp [startsWithDigit] at hdig
    | cons c r =>
      have hc : pyDigitChar c = true := hdig
      simp [List.takeWhile_cons, hc]
  · exact fun c hc => List.mem_takeWhile_imp hc

theorem isMarkerDigits_intro (ds rest : List Char) (hne : ds ≠ [])
    (hdig : ∀ c ∈ ds, pyDigitChar c = true) :
    isMarkerDigits (markerL ++ ds ++ rest) = true := by
  unfold isMarkerDigits
  rw [Bool.and_eq_true]
  constructor
  · exact List.isPrefixOf_iff_prefix.mpr ⟨ds ++ rest, by rw [List.append_assoc]⟩
  · rw [List.append_assoc, List.drop_left]
    cases ds with
    | nil => exact absurd rfl hne
    | cons d ds' =>
      have hd : pyDigitChar d = true := hdig d (by simp)
      simpa [startsWithDigit] using hd

theorem digitsOfMatch_canonical (ds rest : List Char)
    (hdig : ∀ c ∈ ds, pyDigitChar c = true) (hrest : startsWithDigit rest = false) :
    digitsOfMatch (markerL ++ ds ++ rest) = ds ∧
    restOfMatch (markerL ++ ds ++ rest) = rest := by
  unfold digitsOfMatch restOfMatch
  rw [List.append_assoc, List.drop_left]
  exact digits_takeWhile_append ds rest hdig hrest

theorem lazyGroup_sound (l : List Char) : ∀ acc g ds,
    lazyGroup acc l = some (g, ds) →
    ∃ ext tail, g = acc ++ ext ∧ l = ext ++ tail ∧ (∀ c ∈ ext, c ≠ '\n') ∧
      isMarkerDigits tail = true ∧ ds = digitsOfMatch tail ∧
      ∀ ext' tail', l = ext' ++ tail' → isMarkerDigits tail' = true →
        ext.length ≤ ext'.length := by
  induction l with
  | nil =>
    intro acc g ds h
    rw [lazyGroup, isMarkerDigits_nil] at h
    simp at h
  | cons c rest ih =>
    intro acc g ds h
    rw [lazyGroup] at h
    by_cases hm : isMarkerDigits (c :: rest) = true
    · rw [if_pos hm] at h
      obtain ⟨hg, hds⟩ := Prod.mk.injEq _ _ _ _ ▸ Option.some.injEq _ _ ▸ h
      refine ⟨[], c :: rest, by simp [← hg], rfl, by simp, hm, hds.symm, ?_⟩
      intro ext' tail' _ _
      simp
    · rw [if_neg hm] at h
      by_cases hc : c = '\n'
      · rw [if_pos hc] at h; exact absurd h (by simp)
      · rw [if_neg hc] at h
        obtain ⟨ext₁, tail, hg, hrest, hnl, hmk, hds, hmin⟩ := ih (acc ++ [c]) g ds h
        refine ⟨c :: ext₁, tail, ?_, ?_, ?_, hmk, hds, ?_⟩
        · rw [hg, List.append_assoc]; rfl
        · rw [hrest]; rfl
        · intro d hd
          rcases List.mem_cons.mp hd with h1 | h2
          · exact h1 ▸ hc
          · exact hnl d h2
        · intro ext' tail' heq hmk'
          cases ext' with
          | nil =>
            simp at heq
            exact absurd (heq ▸ hmk') hm
          | cons e es =>
            rw [List.cons_append] at heq
            obtain ⟨-, heq2⟩ := List.cons.injEq _ _ _ _ ▸ heq
            have := hmin es tail' heq2 hmk'
            simpa using Nat.succ_le_succ this

theorem lazyGroup_complete (ext : List Char) : ∀ acc tail,
    (∀ c ∈ ext, c ≠ '\n') → isMarkerDigits tail = true →
    (lazyGroup acc (ext ++ tail)).isSome = true := by
  induction ext with
  | nil =>
    intro acc tail _ hmk
    cases tail with
    | nil => rw [isMarkerDigits_nil] at hmk; exact absurd hmk (by simp)
    | cons c rest => simp [lazyGroup, hmk]
  | cons c ext' ih =>
    intro acc tail hnl hmk
    rw [List.cons_append, lazyGroup]
    by_cases hm : isMarkerDigits (c :: (ext' ++ tail)) = true
    · rw [if_pos hm]; rfl
    · have hc : c ≠ '\n' := hnl c (by simp)
      rw [if_neg hm, if_neg hc]
      exact ih (acc ++ [c]) tail (fun d hd => hnl d (by simp [hd])) hmk

theorem tryAt_sound (l g ds : List Char) (h : tryAt l = some (g, ds)) :
    ∃ tail, DecompAt l g tail ∧ ds = digitsOfMatch tail ∧
      ∀ g' tail', DecompAt l g' tail' → g.length ≤ g'.length := by
  cases l with
  | nil => simp [tryAt] at h
  | cons c0 l' =>
    cases l' with
    | nil => simp [tryAt] at h
    | cons c rest =>
      rw [tryAt] at h
      by_cases hc0 : c0 = '/'
      · rw [if_pos hc0] at h
        by_cases hc : c = '\n'
        · rw [if_pos hc] at h; exact absurd h (by simp)
        · rw [if_neg hc] at h
          obtain ⟨ext, tail, hg, hrest, hnl, hmk, hds, hmin⟩ :=
            lazyGroup_sound rest [c] g ds h
          refine ⟨tail, ⟨?_, ?_, ?_, hmk⟩, hds, ?_⟩
          · rw [hc0, hrest, hg]; rfl
          · rw [hg]; simp
          · intro d hd
            rw [hg] at hd
            rcases List.mem_append.mp hd with h1 | h2
            · simp at h1; exact h1 ▸ hc
            · exact hnl d h2
          · intro g' tail' ⟨heq', hne', _, hmk'⟩
            rw [hc0] at heq'
            obtain ⟨-, heq2⟩ := List.cons.injEq _ _ _ _ ▸ heq'
            cases g' with
            | nil => exact absurd rfl hne'
            | cons e es =>
              rw [List.cons_append] at heq2
              obtain ⟨-, heq3⟩ := List.cons.injEq _ _ _ _ ▸ heq2
              have := hmin es tail' heq3 hmk'
              rw [hg]
              simpa using Nat.succ_le_succ this
      · rw [if_neg hc0] at h; exact absurd h (by simp)

theorem tryAt_complete (l g tail : List Char) (h : DecompAt l g tail) :
    (tryAt l).isSome = true := by
  obtain ⟨heq, hne, hnl, hmk⟩ := h
  cases g with
  | nil => exact absurd rfl hne
  | cons c g' =>
    have hc : c ≠ '\n' := hnl c (by simp)
    rw [heq, List.cons_append, tryAt, if_pos rfl, if_neg hc]
    exact lazyGroup_complete g' [c] tail (fun d hd => hnl d (by simp [hd])) hmk

theorem reSearch_sound (p : List Char) : ∀ g ds, reSearch p = some (g, ds) →
    ∃ pre tail, Decomp p pre g tail ∧ ds = digitsOfMatch tail ∧
      ∀ pre' g' tail', Decomp p pre' g' tail' →
        pre.length ≤ pre'.length ∧ (pre'.length = pre.length → g.length ≤ g'.length) := by
  induction p with
  | nil => intro g ds h; simp [reSearch] at h
  | cons c rest ih =>
    intro g ds h
    rw [reSearch] at h
    cases htry : tryAt (c :: rest) with
    | some r =>
      rw [htry] at h
      obtain ⟨hg, hds⟩ : r.1 = g ∧ r.2 = ds := by
        cases r; simpa using h
      obtain ⟨tail, hD, hds', hmin⟩ := tryAt_sound (c :: rest) g ds
        (by rw [htry, ← hg, ← hds])
      refine ⟨[], tail, ⟨hD.1, hD.2.1, hD.2.2.1, hD.2.2.2⟩, hds', ?_⟩
      intro pre' g' tail' hD'
      constructor
      · simp
      · intro hlen
        cases pre' with
        | nil => exact hmin g' tail' ⟨hD'.1, hD'.2.1, hD'.2.2.1, hD'.2.2.2⟩
        | cons e es => simp at hlen
    | none =>
      rw [htry] at h
      obtain ⟨pre₁, tail, hD, hds, hmin⟩ := ih g ds h
      refine ⟨c :: pre₁, tail, ⟨?_, hD.2.1, hD.2.2.1, hD.2.2.2⟩, hds, ?_⟩
      · rw [List.cons_append, hD.1]
      · intro pre' g' tail' hD'
        cases pre' with
        | nil =>
          have : (tryAt (c :: rest)).isSome = true := by
            apply tryAt_complete (c :: rest) g' tail'
            refine ⟨?_, hD'.2.1, hD'.2.2.1, hD'.2.2.2⟩
            simpa using hD'.1
          rw [htry] at this
          simp at this
        | cons e es =>
          have heq' := hD'.1
          rw [List.cons_append] at heq'
          obtain ⟨-, heq2⟩ := List.cons.injEq _ _ _ _ ▸ heq'
          have := hmin es g' tail' ⟨heq2, hD'.2.1, hD'.2.2.1, hD'.2.2.2⟩
          constructor
          · simpa using Nat.succ_le_succ this.1
          · intro hlen
            apply this.2
            simpa using hlen

theorem reSearch_complete (pre : List Char) : ∀ p g tail, Decomp p pre g tail →
    (reSearch p).isSome = true := by
  induction pre with
  | nil =>
    intro p g tail hD
    obtain ⟨heq, hne, hnl, hmk⟩ := hD
    have hsome := tryAt_complete p g tail ⟨by simpa using heq, hne, hnl, hmk⟩
    rw [heq, List.nil_append, reSearch]
    cases htry : tryAt ('/' :: (g ++ tail)) with
    | some r => simp
    | none => rw [heq, List.nil_append, htry] at hsome; simp at hsome
  | cons c pre' ih =>
    intro p g tail hD
    obtain ⟨heq, hne, hnl, hmk⟩ := hD
    rw [List.cons_append] at heq
    rw [heq, reSearch]
    cases htry : tryAt (c :: (pre' ++ '/' :: (g ++ tail))) with
    | some r => simp
    | none => exact ih _ g tail ⟨rfl, hne, hnl, hmk⟩

theorem matchAt_decomp (p pre g ds rest : List Char) (h : MatchAt p pre g ds rest) :
    Decomp p pre g (markerL ++ ds ++ rest) := by
  obtain ⟨heq, hg, hnl, hds, hdig, hrest⟩ := h
  refine ⟨?_, hg, hnl, isMarkerDigits_intro ds rest hds hdig⟩
  rw [heq]
  simp [List.append_assoc]

theorem decomp_matchAt (p pre g tail : List Char) (h : Decomp p pre g tail) :
    MatchAt p pre g (digitsOfMatch tail) (restOfMatch tail) := by
  obtain ⟨heq, hne, hnl, hmk⟩ := h
  obtain ⟨ht, hdne, hdall, hr⟩ := isMarkerDigits_elim tail hmk
  refine ⟨?_, hne, hnl, hdne, hdall, hr⟩
  rw [heq]
  conv_lhs => rw [ht]
  simp [List.append_assoc]

theorem splitparamsAux_sublist (l : List Char) : List.Sublist (splitparamsAux l) l := by
  induction l with
  | nil => exact List.Sublist.refl []
  | cons c rest ih =>
    rw [splitparamsAux]
    by_cases h : c = '/' ∧ ¬ rest.contains '/'
    · rw [if_pos h]
      exact List.Sublist.cons₂ c (List.takeWhile_prefix _).sublist
    · rw [if_neg h]
      exact List.Sublist.cons₂ c ih

theorem splitparams_sublist (l : List Char) : List.Sublist (splitparams l) l := by
  unfold splitparams
  by_cases h : l.contains '/'
  · rw [if_pos h]; exact splitparamsAux_sublist l
  · rw [if_neg h]; exact (List.takeWhile_prefix _).sublist

theorem splitScheme_sublist (l : List Char) : List.Sublist (splitScheme l).2 l := by
  cases h : l.findIdx? (fun c => c = ':') with
  | none =>
    simp only [splitScheme, h]
    exact List.Sublist.refl l
  | some i =>
    by_cases hc : 0 < i ∧ (l.headD ' ').isAlpha ∧ (l.take i).all schemeChar
    · simp only [splitScheme, h, if_pos hc]
      exact (List.drop_suffix _ _).sublist
    · simp only [splitScheme, h, if_neg hc]
      exact List.Sublist.refl l

theorem splitNetloc_sublist (l l' : List Char) (h : splitNetloc l = some l') :
    List.Sublist l' l := by
  cases l with
  | nil => simp only [splitNetloc, Option.some.injEq] at h; exact h ▸ List.Sublist.refl []
  | cons c0 t =>
    cases t with
    | nil =>
      simp only [splitNetloc, Option.some.injEq] at h
      exact h ▸ List.Sublist.refl _
    | cons c1 rest =>
      by_cases hslash : c0 = '/' ∧ c1 = '/'
      · simp only [splitNetloc, if_pos hslash] at h
        split at h
        · exact absurd h (by simp)
        · split at h
          · exact absurd h (by simp)
          · split at h
            · exact absurd h (by simp)
            · simp only [Option.some.injEq] at h
              rw [← h]
              exact List.Sublist.cons c0
                (List.Sublist.cons c1 (List.dropWhile_suffix _).sublist)
      · simp only [splitNetloc, if_neg hslash, Option.some.injEq] at h
        exact h ▸ List.Sublist.refl _

theorem pathOfCleanedUrl_sublist (l1 p : List Char) (h : pathOfCleanedUrl l1 = some p) :
    List.Sublist p l1 := by
  cases hnet : splitNetloc (splitScheme l1).2 with
  | none => simp only [pathOfCleanedUrl, hnet] at h; exact absurd h (by simp)
  | some l3 =>
    simp only [pathOfCleanedUrl, hnet, Option.some.injEq] at h
    have h3 : List.Sublist l3 l1 := (splitNetloc_sublist _ _ hnet).trans (splitScheme_sublist l1)
    have h4 : List.Sublist ((l3.takeWhile (fun c => c ≠ '#')).takeWhile (fun c => c ≠ '?')) l3 :=
      ((List.takeWhile_prefix _).sublist).trans (List.takeWhile_prefix _).sublist
    rw [← h]
    by_cases hu : usesParams.contains (splitScheme l1).1
    · rw [if_pos hu]
      exact ((splitparams_sublist _).trans h4).trans h3
    · rw [if_neg hu]
      exact h4.trans h3

theorem pyUrlparsePath_no_newline (s : String) (p : List Char)
    (h : pyUrlparsePath s = some p) : '\n' ∉ p := by
  intro hmem
  have hsub : List.Sublist p (cleanUrl s) := pathOfCleanedUrl_sublist _ _ h
  have hm2 : ('\n' : Char) ∈ cleanUrl s := hsub.subset hmem
  unfold cleanUrl at hm2
  have := List.of_mem_filter hm2
  simp at this

/-- C3 (confirmed): for every input string whose URL path contains the
pattern slash, repositoryPath, marker, digits (repositoryPath non-empty and
possibly containing further slashes; digits are Unicode decimal digits, as
matched by Python `\d`), the URL Resolver returns the pair of the
repository path stripped of its leading slash and the digits converted to
an integer as `int()` does, matching at the first textual occurrence of the
pattern (smallest preceding prefix, then shortest repository path, with the
maximal digit run); for every other input string — unparseable URLs and
non-numeric id segments included — it returns `(none, none)` rather than
raising. -/
theorem c3_theorem (s : String) (p : List Char) :
    (pyUrlparsePath s = none → parse_gitlab_pr_url s = (none, none)) ∧
    (pyUrlparsePath s = some p →
      (¬ ContainsPat p → parse_gitlab_pr_url s = (none, none)) ∧
      (ContainsPat p → ∃ pre g ds rest,
        MatchAt p pre g ds rest ∧
        parse_gitlab_pr_url s = (some (String.mk g), some (natOfDigits ds)) ∧
        ∀ pre' g' ds' rest', MatchAt p pre' g' ds' rest' →
          pre.length ≤ pre'.length ∧
          (pre'.length = pre.length → g.length ≤ g'.length))) := by
  constructor
  · intro h
    simp only [parse_gitlab_pr_url, h]
  · intro hp
    constructor
    · intro hnpat
      simp only [parse_gitlab_pr_url, hp]
      cases hre : reSearch p with
      | none => rfl
      | some r =>
        exfalso
        obtain ⟨g, ds⟩ := r
        obtain ⟨pre, tail, hD, -, -⟩ := reSearch_sound p g ds hre
        have hM := decomp_matchAt p pre g tail hD
        exact hnpat ⟨pre, g, digitsOfMatch tail, restOfMatch tail,
          hM.1, hM.2.1, hM.2.2.2.1, hM.2.2.2.2.1⟩
    · intro hpat
      have hnl_p := pyUrlparsePath_no_newline s p hp
      obtain ⟨pre0, g0, ds0, rest0, heq0, hg0, hds0, hdig0⟩ := hpat
      have hg0nl : ∀ c ∈ g0, c ≠ '\n' := by
        intro c hc hceq
        apply hnl_p
        rw [heq0]
        subst hceq
        simp [hc]
      have hD0 : Decomp p pre0 g0 (markerL ++ ds0 ++ rest0) := by
        refine ⟨?_, hg0, hg0nl, isMarkerDigits_intro ds0 rest0 hds0 hdig0⟩
        rw [heq0]
        simp [List.append_assoc]
      have hsome := reSearch_complete pre0 p g0 _ hD0
      obtain ⟨r, hre⟩ := Option.isSome_iff_exists.mp hsome
      obtain ⟨g, ds⟩ := r
      obtain ⟨pre, tail, hD, hds, hmin⟩ := reSearch_sound p g ds hre
      have hM := decomp_matchAt p pre g tail hD
      refine ⟨pre, g, digitsOfMatch tail, restOfMatch tail, hM, ?_, ?_⟩
      · simp only [parse_gitlab_pr_url, hp, hre]
        rw [hds]
      · intro pre' g' ds' rest' hM'
        exact hmin pre' g' _ (matchAt_decomp p pre' g' ds' rest' hM')

/-- Witness for C3 at the spec's own example URL, which resolves to
`("team/proj", 42)`. -/
theorem c3_witness :
    ∃ r n, parse_gitlab_pr_url
      "https://gitlab.example.com/team/proj/-/merge_requests/42" = (some r, some n) := by
  have h2 := ( c3_theorem
    "https://gitlab.example.com/team/proj/-/merge_requests/42"
    ("/team/proj/-/merge_requests/42".toList)).2 (by decide)
  obtain ⟨pre, g, ds, rest, -, heq, -⟩ := h2.2 ⟨[], "team/proj".toList, ['4', '2'], [],
    by decide, by decide, by decide, by decide⟩
  exact ⟨String.mk g, natOfDigits ds, heq⟩

/-! Theorems about the Review Orchestrator and the Generation-Backend
Client. -/

theorem titleStep_ok (w : World) (t : Option String)
    (ht : falsyStr t = false ∨ ∃ s, w.titleResult = .ok s) :
    ∃ title, (if falsyStr t then w.titleResult else Except.ok (t.getD "")) =
      Except.ok title := by
  by_cases hft : falsyStr t = true
  · rcases ht with hf | ⟨s, hs⟩
    · rw [hft] at hf; exact absurd hf (by simp)
    · exact ⟨s, by rw [if_pos hft, hs]⟩
  · exact ⟨t.getD "", by rw [if_neg hft]⟩

/-- C8 (confirmed): the Generation-Backend Client is total over every
exchange outcome and factors through the spec's typed `GenerationResult`: a
successful exchange yields the generated text, a timeout yields the
`TimedOut` rendering, a connection failure the `ConnectionFailed` rendering
naming the endpoint, and any other failure — any non-success HTTP status
included — the `UnexpectedFailure` rendering of the detail.  The client
consumes exactly one exchange outcome: it never retries internally. -/
theorem c8_theorem (cfg : Config) (ev : OllamaEvent) :
    call_ollama_api cfg ev = renderGenerationResult (generationResultOfEvent cfg ev) := by
  cases ev with
  | success r => cases r <;> rfl
  | timeout => rfl
  | requestError d => rfl
  | httpStatus d => rfl
  | unexpected d => rfl

/-- C7 (confirmed): the Review Orchestrator is total at its boundary: for
every behaviour of its collaborators (title fetch, diff fetch, generation,
comment post — each possibly raising), the orchestration function returns a
typed outcome whose status is `success` or `error`; no exception
propagates. -/
theorem c7_theorem (cfg : Config) (w : World) (id : Nat) (t : Option String) :
    (review_merge_request cfg w id t).1.status = "success" ∨
    (review_merge_request cfg w id t).1.status = "error" := by
  cases hT : (if falsyStr t then w.titleResult else Except.ok (t.getD "")) with
  | error e => right; simp [review_merge_request, hT]
  | ok title =>
    cases hd : w.diffResult with
    | error e => right; simp [review_merge_request, hT, hd]
    | ok diff =>
      by_cases hde : diff = ""
      · right; simp [review_merge_request, hT, hd, if_pos hde]
      · cases hp : w.postResult with
        | ok u => left; simp [review_merge_request, hT, hd, if_neg hde, hp]
        | error e => right; simp [review_merge_request, hT, hd, if_neg hde, hp]

/-- C6 (corrected): not every terminal outcome carries the requestId — the
`mr_id` field is present exactly on the success outcome, and every error
outcome (the empty-diff outcome included) carries `none`. -/
theorem c6_theorem (cfg : Config) (w : World) (id : Nat) (t : Option String) :
    ((review_merge_request cfg w id t).1.status = "success" ∧
      (review_merge_request cfg w id t).1.mrIdField = some id) ∨
    ((review_merge_request cfg w id t).1.status = "error" ∧
      (review_merge_request cfg w id t).1.mrIdField = none) := by
  cases hT : (if falsyStr t then w.titleResult else Except.ok (t.getD "")) with
  | error e => right; constructor <;> simp [review_merge_request, hT]
  | ok title =>
    cases hd : w.diffResult with
    | error e => right; constructor <;> simp [review_merge_request, hT, hd]
    | ok diff =>
      by_cases hde : diff = ""
      · right; constructor <;> simp [review_merge_request, hT, hd, if_pos hde]
      · cases hp : w.postResult with
        | ok u => left; constructor <;> simp [review_merge_request, hT, hd, if_neg hde, hp]
        | error e =>
          right; constructor <;> simp [review_merge_request, hT, hd, if_neg hde, hp]

/-- C6 counterexample: a run whose diff fetch fails returns an outcome with
no `mr_id` field at all, refuting that every terminal outcome carries
exactly one requestId. -/
theorem c6_counterexample :
    (review_merge_request cfg0 wDiffFail 5 (some "T")).1.mrIdField = none := rfl

/-- C2 (corrected): on an empty diff the orchestrator makes zero generation
calls and zero comment posts, but the outcome it returns has status `error`
with message `No changes found in MR <id>` — the empty diff is folded into
the error status rather than being a separate `Empty` state. -/
theorem c2_theorem (cfg : Config) (w : World) (id : Nat) (t : Option String)
    (hd : w.diffResult = .ok "")
    (ht : falsyStr t = false ∨ ∃ s, w.titleResult = .ok s) :
    review_merge_request cfg w id t =
      (⟨"error", "No changes found in MR " ++ toString id, none⟩, ⟨[], []⟩) := by
  obtain ⟨title, hT⟩ := titleStep_ok w t ht
  unfold review_merge_request
  rw [hT, hd]
  simp

/-- Witness for C2 at a concrete empty-diff run. -/
theorem c2_witness :
    review_merge_request cfg0 wEmptyDiff 5 (some "T") =
      (⟨"error", "No changes found in MR " ++ toString 5, none⟩, ⟨[], []⟩) :=
  c2_theorem cfg0 wEmptyDiff 5 (some "T") rfl (Or.inl (by decide))

/-- C2 counterexample: the empty-diff outcome has the same status as a
genuine error outcome (a failed diff fetch), namely `error`, so it is not a
terminal state distinguishable from `Error`. -/
theorem c2_counterexample :
    (review_merge_request cfg0 wEmptyDiff 5 (some "T")).1.status =
      (review_merge_request cfg0 wDiffFail 5 (some "T")).1.status ∧
    (review_merge_request cfg0 wEmptyDiff 5 (some "T")).1.status = "error" :=
  ⟨rfl, rfl⟩

theorem pyStartswith_append (a b pre : String) (h : pyStartswith a pre = true) :
    pyStartswith (a ++ b) pre = true := by
  unfold pyStartswith at h ⊢
  rw [List.isPrefixOf_iff_prefix] at h ⊢
  have hl : (a ++ b).toList = a.toList ++ b.toList := by
    simp [String.toList, String.data_append]
  rw [hl]
  exact h.trans (List.prefix_append _ _)

/-- C1 (corrected): for every review run in which the generation call fails
(timeout, connection failure, non-success HTTP status, or any unexpected
failure), the orchestrator still posts exactly one warning comment whose
body embeds the rendered failure detail (for a timeout it contains
`timed out`); but the outcome it returns has status `success` whenever that
comment post succeeds (the generation failure is reported only inside the
posted comment), and status `error` exactly when the post itself fails. -/
theorem c1_theorem (cfg : Config) (w : World) (id : Nat) (t : Option String) (d : String)
    (hfail : ∀ r, w.ollamaEvent ≠ OllamaEvent.success r)
    (hd : w.diffResult = .ok d) (hne : d ≠ "")
    (ht : falsyStr t = false ∨ ∃ s, w.titleResult = .ok s) :
    (review_merge_request cfg w id t).2.posts =
      [(id, warningComment (call_ollama_api cfg w.ollamaEvent))] ∧
    (w.ollamaEvent = .timeout → ∃ a b,
      warningComment (call_ollama_api cfg w.ollamaEvent) = a ++ "timed out" ++ b) ∧
    ((review_merge_request cfg w id t).1.status = "success" ↔ ∃ u, w.postResult = .ok u) ∧
    ((review_merge_request cfg w id t).1.status = "error" ↔ ∃ e, w.postResult = .error e) := by
  obtain ⟨title, hT⟩ := titleStep_ok w t ht
  have hpre : pyStartswith (call_ollama_api cfg w.ollamaEvent) "Error:" = true := by
    cases hev : w.ollamaEvent with
    | success r => exact absurd hev (hfail r)
    | timeout =>
      rw [show call_ollama_api cfg OllamaEvent.timeout =
        "Error: Request to Ollama timed out. Please try again." from rfl]
      decide
    | requestError detail =>
      exact pyStartswith_append "Error: Failed to connect to Ollama API at "
        cfg.ollamaBaseUrl "Error:" (by decide)
    | httpStatus detail => exact pyStartswith_append "Error: " detail "Error:" (by decide)
    | unexpected detail => exact pyStartswith_append "Error: " detail "Error:" (by decide)
  refine ⟨?_, ?_, ?_, ?_⟩
  · simp only [review_merge_request, hT, hd]
    rw [if_neg hne, if_pos hpre]
    cases hpost : w.postResult with
    | ok u => simp
    | error e => simp
  · intro hev
    rw [hev, show call_ollama_api cfg OllamaEvent.timeout =
      "Error: Request to Ollama timed out. Please try again." from rfl]
    exact ⟨"⚠️ **Automated Review Error**\n\nError: Request to Ollama ",
      ". Please try again.\n\nPlease check the reviewer service logs.", by decide⟩
  · simp only [review_merge_request, hT, hd]
    rw [if_neg hne, if_pos hpre]
    cases hpost : w.postResult with
    | ok u => simp
    | error e => simp
  · simp only [review_merge_request, hT, hd]
    rw [if_neg hne, if_pos hpre]
    cases hpost : w.postResult with
    | ok u => simp
    | error e => simp

/-- Witness for C1 at a concrete timed-out run with a successful post. -/
theorem c1_witness :
    (review_merge_request cfg0 wTimeout 5 (some "T")).2.posts =
      [(5, warningComment "Error: Request to Ollama timed out. Please try again.")] ∧
    (review_merge_request cfg0 wTimeout 5 (some "T")).1.status = "success" := by
  have h := c1_theorem cfg0 wTimeout 5 (some "T") "diff text"
    (fun r hr => OllamaEvent.noConfusion hr) rfl (by decide) (Or.inl (by decide))
  exact ⟨h.1, h.2.2.1.mpr ⟨(), rfl⟩⟩

/-- C1 counterexample: on a timed-out generation with a successful comment
post the orchestrator returns status `success`, refuting that the outcome is
`Error`; the single posted comment is attested by the trace. -/
theorem c1_counterexample :
    (review_merge_request cfg0 wTimeout 5 (some "T")).1.status = "success" ∧
    (review_merge_request cfg0 wTimeout 5 (some "T")).2.posts.length = 1 :=
  ⟨rfl, rfl⟩

/-- C10 (confirmed): generation failure is detected by the string prefix
`Error:`.  A successfully generated text that itself starts with `Error:` is
classified as failed and posted in the warning format (whose body contains
`Automated Review Error`); a successful exchange whose JSON body lacks the
`response` field yields `No response from Ollama`, which lacks the prefix
and is posted in the success review format. -/
theorem c10_theorem (cfg : Config) (w : World) (id : Nat) (t : Option String)
    (d s : String)
    (hd : w.diffResult = .ok d) (hne : d ≠ "")
    (ht : falsyStr t = false ∨ ∃ u, w.titleResult = .ok u) :
    (w.ollamaEvent = .success (some s) → pyStartswith s "Error:" = true →
      (review_merge_request cfg w id t).2.posts = [(id, warningComment s)] ∧
      ∃ a b, warningComment s = a ++ "Automated Review Error" ++ b) ∧
    (w.ollamaEvent = .success none →
      (review_merge_request cfg w id t).2.posts =
        [(id, reviewComment cfg "No response from Ollama")] ∧
      pyStartswith "No response from Ollama" "Error:" = false ∧
      ((review_merge_request cfg w id t).1.status = "success" ↔
        ∃ u, w.postResult = .ok u)) := by
  obtain ⟨title, hT⟩ := titleStep_ok w t ht
  constructor
  · intro hev hpre
    constructor
    · simp only [review_merge_request, hT, hd, hev, call_ollama_api]
      rw [if_neg hne, if_pos hpre]
      cases hpost : w.postResult with
      | ok u => simp
      | error e => simp
    · refine ⟨"⚠️ **", "**\n\n" ++ s ++ "\n\nPlease check the reviewer service logs.", ?_⟩
      unfold warningComment
      rw [show ("⚠️ **" ++ "Automated Review Error" : String) =
        "⚠️ **Automated Review Error" by decide]
      rw [← String.append_assoc, ← String.append_assoc]
      rw [show ("⚠️ **Automated Review Error" ++ "**\n\n" : String) =
        "⚠️ **Automated Review Error**\n\n" by decide]
  · intro hev
    refine ⟨?_, by decide, ?_⟩ <;>
    · simp only [review_merge_request, hT, hd, hev, call_ollama_api]
      rw [if_neg hne, if_neg (show ¬ pyStartswith "No response from Ollama" "Error:" = true
        by decide)]
      cases hpost : w.postResult with
      | ok u => simp
      | error e => simp

/-- Witness for C10: a generated text starting with `Error:` is posted as a
warning, and a missing `response` field is posted as a success review. -/
theorem c10_witness :
    (review_merge_request cfg0 wErrText 5 (some "T")).2.posts =
      [(5, warningComment "Error: fake")] ∧
    (review_merge_request cfg0 wNoResp 5 (some "T")).2.posts =
      [(5, reviewComment cfg0 "No response from Ollama")] := by
  have h1 := (c10_theorem cfg0 wErrText 5 (some "T") "diff text" "Error: fake" rfl
    (by decide) (Or.inl (by decide))).1 rfl (by decide)
  have h2 := (c10_theorem cfg0 wNoResp 5 (some "T") "diff text" "x" rfl
    (by decide) (Or.inl (by decide))).2 rfl
  exact ⟨h1.1, h2.1⟩

theorem intercalate_go_spec (as : List String) : ∀ acc,
    String.intercalate.go acc "\n" as = specDiffJoin (acc :: as) := by
  induction as with
  | nil => intro acc; rfl
  | cons b bs ih =>
    intro acc
    rw [show String.intercalate.go acc "\n" (b :: bs) =
      String.intercalate.go (acc ++ "\n" ++ b) "\n" bs from rfl, ih]
    cases bs with
    | nil => rfl
    | cons c cs => simp [specDiffJoin, String.append_assoc]

/-- C9 (confirmed): `get_merge_request_diff` returns exactly the
concatenation of the host's file-level diff fragments in host order,
separated by a single newline and nothing else, and the empty fragment list
yields the empty string. -/
theorem c9_theorem (changes : List String) :
    get_merge_request_diff changes = specDiffJoin changes ∧
    get_merge_request_diff [] = "" := by
  refine ⟨?_, rfl⟩
  cases changes with
  | nil => rfl
  | cons a as =>
    rw [show get_merge_request_diff (a :: as) =
      String.intercalate.go a "\n" as from rfl]
    exact intercalate_go_spec as a

/-! Theorems about Event Intake (`gitlab_webhook`). -/

/-- C4 (corrected): non-merge-request kinds are skipped with zero
orchestration runs; merge-request events whose action is outside
open/update/reopen are skipped with zero runs; a matching action with a
falsy `iid` is a 400 hard error; and a matching action with a valid `iid`
triggers exactly one orchestration run provided the handler's own client
construction and preliminary diff fetch succeed with a non-empty diff —
with zero runs otherwise. -/
theorem c4_theorem (cfg : Config) (w : World) (p : Payload) (et : Option String)
    (md : MRData) (het : pyOrStr p.event_type p.object_kind = et)
    (hmd : pyOrMR p.object_attributes p.merge_request = md) :
    (¬ (et = some "merge_request" ∨ et = some "Merge Request Hook") →
      (gitlab_webhook cfg w (.ok p)).reviewRuns = [] ∧
      (gitlab_webhook cfg w (.ok p)).result = .response 200
        (.message ("Event type " ++ showOptStr et ++ " not processed"))) ∧
    ((et = some "merge_request" ∨ et = some "Merge Request Hook") →
      ¬ (md.action.getD "" = "open" ∨ md.action.getD "" = "update" ∨
          md.action.getD "" = "reopen") →
      (gitlab_webhook cfg w (.ok p)).reviewRuns = [] ∧
      (gitlab_webhook cfg w (.ok p)).result = .response 200
        (.message ("Skipped MR " ++ showOptNat md.iid ++ " - action: " ++
          md.action.getD ""))) ∧
    ((et = some "merge_request" ∨ et = some "Merge Request Hook") →
      (md.action.getD "" = "open" ∨ md.action.getD "" = "update" ∨
        md.action.getD "" = "reopen") →
      falsyNat md.iid = true →
      (gitlab_webhook cfg w (.ok p)).reviewRuns = [] ∧
      (gitlab_webhook cfg w (.ok p)).result =
        .httpError 400 "Missing merge request ID") ∧
    ((et = some "merge_request" ∨ et = some "Merge Request Hook") →
      (md.action.getD "" = "open" ∨ md.action.getD "" = "update" ∨
        md.action.getD "" = "reopen") →
      ∀ n, md.iid = some n → n ≠ 0 → w.clientInit = .ok () →
      ∀ d, w.diffResult = .ok d → d ≠ "" →
      (gitlab_webhook cfg w (.ok p)).reviewRuns = [n]) ∧
    ((et = some "merge_request" ∨ et = some "Merge Request Hook") →
      (md.action.getD "" = "open" ∨ md.action.getD "" = "update" ∨
        md.action.getD "" = "reopen") →
      ∀ n, md.iid = some n → n ≠ 0 →
      ((∃ e, w.clientInit = .error e) ∨ (∃ e, w.diffResult = .error e) ∨
        w.diffResult = .ok "") →
      (gitlab_webhook cfg w (.ok p)).reviewRuns = []) := by
  refine ⟨?_, ?_, ?_, ?_, ?_⟩
  · intro hk
    constructor <;> simp [gitlab_webhook, het, hmd, hk]
  · intro hk hact
    constructor <;> simp [gitlab_webhook, het, hmd, hk, hact]
  · intro hk hact hf
    constructor <;> simp [gitlab_webhook, het, hmd, hk, hact, hf]
  · intro hk hact n hi hn hc d hd hde
    simp [gitlab_webhook, het, hmd, hk, hact, hi, hn, hc, hd, hde, falsyNat]
  · intro hk hact n hi hn hfail
    cases hcl : w.clientInit with
    | error e => simp [gitlab_webhook, het, hmd, hk, hact, hi, hn, hcl, falsyNat]
    | ok u =>
      rcases hfail with ⟨e, he⟩ | ⟨e, he⟩ | he
      · rw [hcl] at he; exact absurd he (by simp)
      · simp [gitlab_webhook, het, hmd, hk, hact, hi, hn, hcl, he, falsyNat]
      · simp [gitlab_webhook, het, hmd, hk, hact, hi, hn, hcl, he, falsyNat]

/-- C4 counterexample: a merge-request event with `action = "open"` and a
valid `iid` triggers zero orchestration runs when the preliminary diff fetch
returns an empty diff, refuting that exactly one run is always triggered. -/
theorem c4_counterexample :
    (gitlab_webhook cfg0 wEmptyDiff (Except.ok pOpen)).reviewRuns = [] ∧
    ¬ (gitlab_webhook cfg0 wEmptyDiff (Except.ok pOpen)).reviewRuns.length = 1 :=
  ⟨rfl, by decide⟩

/-- Witness for C4: with a working client and a non-empty diff, the open
event with `iid = 5` triggers exactly one orchestration run. -/
theorem c4_witness :
    (gitlab_webhook cfg0 wGood (Except.ok pOpen)).reviewRuns = [5] := by
  have h := c4_theorem cfg0 wGood pOpen (some "merge_request")
    ⟨some 5, some "open", some "T"⟩ rfl rfl
  exact h.2.2.2.1 (Or.inl rfl) (Or.inl rfl) 5 rfl (by decide) rfl "diff text" rfl (by decide)

/-- C5 (corrected): a well-formed merge-request event past the filter is
acknowledged with 200 only when the review pipeline reports success
(which includes posted-warning generation failures) or the diff is empty;
a client-construction failure or diff-fetch failure raises a 500 error, a
review failure (for example a failed comment post) yields a 500 response
with the outcome embedded in the body, and a malformed payload is a 500
error. -/
theorem c5_theorem (cfg : Config) (w : World) (p : Payload) (et : Option String)
    (md : MRData) (n : Nat) (het : pyOrStr p.event_type p.object_kind = et)
    (hmd : pyOrMR p.object_attributes p.merge_request = md)
    (hkind : et = some "merge_request" ∨ et = some "Merge Request Hook")
    (hact : md.action.getD "" = "open" ∨ md.action.getD "" = "update" ∨
      md.action.getD "" = "reopen")
    (hiid : md.iid = some n) (hn : n ≠ 0) :
    (∀ e, w.clientInit = .error e →
      (gitlab_webhook cfg w (.ok p)).result =
        .httpError 500 ("Internal server error: " ++ e)) ∧
    (w.clientInit = .ok () → ∀ e, w.diffResult = .error e →
      (gitlab_webhook cfg w (.ok p)).result =
        .httpError 500 ("Failed to fetch MR diff: " ++ e)) ∧
    (w.clientInit = .ok () → w.diffResult = .ok "" →
      (gitlab_webhook cfg w (.ok p)).result =
        .response 200 (.message ("No changes found in MR " ++ toString n))) ∧
    (w.clientInit = .ok () → ∀ d, w.diffResult = .ok d → d ≠ "" →
      (gitlab_webhook cfg w (.ok p)).result =
        .response
          (if (review_merge_request cfg w n (some (md.title.getD ""))).1.status = "success"
            then 200 else 500)
          (.result (review_merge_request cfg w n (some (md.title.getD ""))).1)) ∧
    (∀ e, gitlab_webhook cfg w (.error e) =
      ⟨.httpError 500 ("Internal server error: " ++ e), [], ⟨[], []⟩⟩) := by
  refine ⟨?_, ?_, ?_, ?_, fun e => rfl⟩
  · intro e he
    simp [gitlab_webhook, het, hmd, hkind, hact, hiid, hn, he, falsyNat]
  · intro hc e he
    simp [gitlab_webhook, het, hmd, hkind, hact, hiid, hn, hc, he, falsyNat]
  · intro hc he
    simp [gitlab_webhook, het, hmd, hkind, hact, hiid, hn, hc, he, falsyNat]
  · intro hc d hd hde
    simp [gitlab_webhook, het, hmd, hkind, hact, hiid, hn, hc, hd, hde, falsyNat]

/-- C5 counterexample: a well-formed open event whose diff fetch fails
downstream receives a 500 error, refuting the claim that such senders
receive a 200-class acknowledgement with the failure embedded in the
body. -/
theorem c5_counterexample :
    (gitlab_webhook cfg0 wDiffFail (Except.ok pOpen)).result =
      .httpError 500 "Failed to fetch MR diff: boom" := rfl

/-- Witness for C5: a failed comment post yields a 500 response whose body
embeds the error outcome. -/
theorem c5_witness :
    (gitlab_webhook cfg0 wPostFail (Except.ok pOpen)).result =
      .response 500 (.result ⟨"error", "Failed to post comment: denied", none⟩) := by
  have h := (c5_theorem cfg0 wPostFail pOpen (some "merge_request")
    ⟨some 5, some "open", some "T"⟩ 5 rfl rfl (Or.inl rfl) (Or.inl rfl) rfl
    (by decide)).2.2.2.1 rfl "diff text" rfl (by decide)
  exact h.trans (by decide)

end GitlabReviewer
